import Mathlib

/-!
Shallow embedding of `tap_exchangeratesapi/__init__.py` (the sync engine of the
exchange-rates tap): `parse_response`, the `giveup` predicate, the
backoff-wrapped `request`, and the day-by-day loop `do_sync`.

Modelling conventions:
* Python dicts whose values are heterogeneous (the `rates` mapping after
  `parse_response` mutates it) are association lists `List (String × Val)`;
  assignment `d[k] = v` updates the binding in place when `k` is present and
  appends it otherwise, exactly like insertion-ordered Python dicts.
  Rate values (Python floats) are carried as rationals: the program never
  computes with them, it only stores and emits them.
* Calendar dates are a `Date` structure; `nextDay` is Gregorian successor,
  matching `datetime.strptime(s, "%Y-%m-%d") + timedelta(days=1)` on the
  canonical zero-padded strings the cursor always holds (`main` canonicalises
  the start date with `strftime("%Y-%m-%d")` before calling `do_sync`).
  The loop guard `datetime.strptime(next_date) <= datetime.utcnow()` compares
  midnight of the cursor day with the current instant, which holds exactly
  when the cursor day is ≤ the current UTC day, so it is modelled as `dateLe`
  on dates.
* Exceptions are modelled with `Except` / explicit error constructors; the
  mutation `parse_response` performs on its argument's `rates` dict is made
  explicit by returning the post-call payload alongside the record.
-/

namespace Tap

/-- A value stored in a Python dict: a number (rate) or a string. -/
inductive Val where
  | num (q : ℚ)
  | str (s : String)
  deriving DecidableEq, Repr

/-- Insertion-ordered string-keyed dictionary (Python `dict`). -/
abbrev Dict := List (String × Val)

instance {ε α : Type} [DecidableEq ε] [DecidableEq α] : DecidableEq (Except ε α) :=
  fun a b =>
    match a, b with
    | .ok x, .ok y =>
      if h : x = y then isTrue (by rw [h])
      else isFalse (fun hh => h (by injection hh))
    | .error x, .error y =>
      if h : x = y then isTrue (by rw [h])
      else isFalse (fun hh => h (by injection hh))
    | .ok _, .error _ => isFalse (fun hh => Except.noConfusion hh)
    | .error _, .ok _ => isFalse (fun hh => Except.noConfusion hh)

/-- `d.get(k)` as first-match lookup (keys are unique in reachable dicts). -/
def alookup {α : Type} (k : String) : List (String × α) → Option α
  | [] => none
  | (k', v) :: rest => if k' = k then some v else alookup k rest

/-- Python `d[k] = v`: replace the binding in place if present, else append. -/
def ainsert {α : Type} (k : String) (v : α) : List (String × α) → List (String × α)
  | [] => [(k, v)]
  | (k', v') :: rest => if k' = k then (k', v) :: rest else (k', v') :: ainsert k v rest

/-- A calendar date (year, month, day). -/
structure Date where
  year : Nat
  month : Nat
  day : Nat
  deriving DecidableEq, Repr

def isLeap (y : Nat) : Bool :=
  y % 4 == 0 && (y % 100 != 0 || y % 400 == 0)

def daysInMonth (y m : Nat) : Nat :=
  if m = 2 then (if isLeap y then 29 else 28)
  else if m = 4 ∨ m = 6 ∨ m = 9 ∨ m = 11 then 30
  else 31

/-- `date + timedelta(days=1)` (Gregorian successor). -/
def nextDay (d : Date) : Date :=
  if d.day < daysInMonth d.year d.month then ⟨d.year, d.month, d.day + 1⟩
  else if d.month < 12 then ⟨d.year, d.month + 1, 1⟩
  else ⟨d.year + 1, 1, 1⟩

/-- Chronological `≤` on dates (lexicographic on year, month, day). -/
def dateLe (a b : Date) : Bool :=
  a.year < b.year ||
    (a.year == b.year &&
      (a.month < b.month || (a.month == b.month && a.day ≤ b.day)))

/-- Chronological `<` on dates. -/
def dateLt (a b : Date) : Bool :=
  a.year < b.year ||
    (a.year == b.year &&
      (a.month < b.month || (a.month == b.month && a.day < b.day)))

def pad2 (n : Nat) : String :=
  if n < 10 then "0" ++ toString n else toString n

def pad4 (n : Nat) : String :=
  if n < 10 then "000" ++ toString n
  else if n < 100 then "00" ++ toString n
  else if n < 1000 then "0" ++ toString n
  else toString n

/-- `strftime("%Y-%m-%d")` of a date. -/
def dateStr (d : Date) : String :=
  pad4 d.year ++ "-" ++ pad2 d.month ++ "-" ++ pad2 d.day

/-- `strftime("%Y-%m-%dT%H:%M:%SZ")` of the midnight `struct_time` that
`time.strptime(s, "%Y-%m-%d")` produces. -/
def isoMidnight (d : Date) : String :=
  dateStr d ++ "T00:00:00Z"

/-- Split a character list at every `'-'` (the groups of `s.split("-")`). -/
def splitDash : List Char → List (List Char)
  | [] => [[]]
  | c :: rest =>
    let r := splitDash rest
    if c = '-' then [] :: r
    else
      match r with
      | [] => [[c]]
      | g :: gs => (c :: g) :: gs

/-- Decimal value of a digit run; `none` on a non-digit. -/
def digitsToNat (acc : Nat) : List Char → Option Nat
  | [] => some acc
  | c :: rest =>
    if c.isDigit then digitsToNat (acc * 10 + (c.toNat - 48)) rest else none

/-- A non-empty all-digit group read as a decimal number. -/
def parseNatGroup : List Char → Option Nat
  | [] => none
  | cs => digitsToNat 0 cs

/-- `time.strptime(s, "%Y-%m-%d")`: three dash-separated decimal fields with
month in 1..12 and day in 1..31 (`time.strptime` checks only these ranges). -/
def strptimeD (s : String) : Option Date :=
  match splitDash s.data with
  | [ys, ms, ds] =>
    match parseNatGroup ys, parseNatGroup ms, parseNatGroup ds with
    | some y, some m, some d =>
      if 1 ≤ m ∧ m ≤ 12 ∧ 1 ≤ d ∧ d ≤ 31 then some ⟨y, m, d⟩ else none
    | _, _, _ => none
  | _ => none

/-- The JSON payload of one day's response, as the fields the tap reads.
`none` models the key being absent (Python raises `KeyError` on access). -/
structure Payload where
  base : Option String
  date : Option String
  rates : Option Dict
  deriving DecidableEq, Repr

/-- Python exceptions the embedded fragments can raise. -/
inductive PyErr where
  | keyError (k : String)
  | valueError
  | attributeError
  deriving DecidableEq, Repr

/-- `parse_response(r)`:
```
flattened = r["rates"]
flattened[r["base"]] = 1.0
flattened["base"] = r["base"]
flattened["date"] = time.strftime("%Y-%m-%dT%H:%M:%SZ",
                                  time.strptime(r["date"], DATE_FORMAT))
return flattened
```
`flattened` aliases `r["rates"]`, so the call mutates the payload; the model
returns the record together with the payload as it stands after the call.
`prRecord` names the three assignments performed on the `rates` dict. -/
def prRecord (b : String) (d : Date) (rates : Dict) : Dict :=
  ainsert "date" (Val.str (isoMidnight d))
    (ainsert "base" (Val.str b) (ainsert b (Val.num 1) rates))

def parse_response (r : Payload) : Except PyErr (Dict × Payload) :=
  match r.rates, r.base, r.date with
  | none, _, _ => .error (.keyError "rates")
  | some _, none, _ => .error (.keyError "base")
  | some _, some _, none => .error (.keyError "date")
  | some rates, some b, some ds =>
    match strptimeD ds with
    | none => .error .valueError
    | some d =>
      .ok (prRecord b d rates, { r with rates := some (prRecord b d rates) })

/-- An HTTP response attached to a `requests` exception. -/
structure HttpResp where
  status : Nat
  body : String
  deriving DecidableEq, Repr

/-- `giveup(error)`:
```
logger.error(error.response.text)
response = error.response
return not (response.status_code == 429 or response.status_code >= 500)
```
When the `RequestException` carries no response (connection error, timeout),
`error.response` is `None` and the very first line raises `AttributeError`. -/
def giveup (response : Option HttpResp) : Except PyErr Bool :=
  match response with
  | none => .error .attributeError
  | some r => .ok (!(r.status == 429 || 500 ≤ r.status))

/-- What a single HTTP attempt inside `request` does: return a 2xx response
whose JSON body is the payload, raise an HTTP error with a response attached
(`raise_for_status` on a 4xx/5xx), or raise a connection-level
`RequestException` with no response. -/
inductive AttemptResult where
  | success (p : Payload)
  | httpError (r : HttpResp)
  | connError
  deriving Repr

/-- `max_tries=5` of the `backoff.on_exception` decorator. -/
def max_tries : Nat := 5

/-- `interval=30` of the `backoff.on_exception` decorator. -/
def interval : ℚ := 30

/-- How a call to `request` ends, as seen by `do_sync`. -/
inductive ReqOutcome where
  | ok (p : Payload)
  | exn (response : Option HttpResp)
  | attrError
  deriving DecidableEq, Repr

/-- Trace of one `request` call: its final outcome, how many attempts were
issued, and the sleeps performed between attempts. -/
structure ReqTrace where
  outcome : ReqOutcome
  tries : Nat
  delays : List ℚ
  deriving DecidableEq, Repr

/-- The retry loop of `backoff.on_exception(backoff.constant, RequestException,
jitter=backoff.random_jitter, max_tries=5, giveup=giveup, interval=30)`:
each round runs the target; on a `RequestException` it evaluates
`giveup(e) or tries == max_tries` (giveup first — if `giveup` itself raises,
that exception propagates at once) and re-raises when true, otherwise sleeps
`interval + jitter(tries)` and retries. `jitter i` stands for the value
`random.random()` produced before attempt `i + 1`. -/
def requestGo (attempt : Nat → AttemptResult) (jitter : Nat → ℚ) :
    Nat → Nat → List ℚ → ReqTrace
  | 0, tries, delays => ⟨.exn none, tries, delays.reverse⟩
  | fuel + 1, tries, delays =>
    let t := tries + 1
    match attempt tries with
    | .success p => ⟨.ok p, t, delays.reverse⟩
    | .httpError r =>
      match giveup (some r) with
      | .error _ => ⟨.attrError, t, delays.reverse⟩
      | .ok g =>
        if g || t == max_tries then ⟨.exn (some r), t, delays.reverse⟩
        else requestGo attempt jitter fuel t ((interval + jitter tries) :: delays)
    | .connError =>
      match giveup none with
      | .error _ => ⟨.attrError, t, delays.reverse⟩
      | .ok g =>
        if g || t == max_tries then ⟨.exn none, t, delays.reverse⟩
        else requestGo attempt jitter fuel t ((interval + jitter tries) :: delays)

/-- `request(url, headers)` under the backoff decorator, for a given sequence
of per-attempt behaviours and jitter draws. -/
def request (attempt : Nat → AttemptResult) (jitter : Nat → ℚ) : ReqTrace :=
  requestGo attempt jitter max_tries 0 []

/-- Descriptor of one field of the module-level `schema` dict: the only three
shapes occurring are fixed `date`/`base` and the dynamically added currencies. -/
inductive FieldSpec where
  | dateTimeString
  | stringType
  | nullNumber
  deriving DecidableEq, Repr

/-- The `properties` of the module-level `schema` (the rest of the schema dict
is the constant `{"type": "object"}` wrapper and never changes). -/
abbrev Schema := List (String × FieldSpec)

/-- The schema at module load:
`{"date": {"type": "string", "format": "date-time"}, "base": {"type": "string"}}`. -/
def schema0 : Schema := [("date", .dateTimeString), ("base", .stringType)]

/-- The schema-evolution loop of `do_sync`:
```
for rate in payload["rates"]:
    if rate not in schema["properties"]:
        schema["properties"][rate] = {"type": ["null", "number"]}
```
-/
def updateSchema (rates : Dict) (s : Schema) : Schema :=
  rates.foldl
    (fun acc kv =>
      if (alookup kv.1 acc).isSome then acc else acc ++ [(kv.1, .nullNumber)])
    s

/-- A message written to the output stream by the singer helpers. -/
inductive Msg where
  | schemaMsg (stream : String) (s : Schema) (keyField : String)
  | recordMsg (stream : String) (records : List Dict)
  | stateMsg (state : Dict)
  deriving DecidableEq, Repr

/-- The `state` dict `{"start_date": s}`. -/
def stdict (s : String) : Dict := [("start_date", Val.str s)]

/-- The loop-carried variables of `do_sync`: the cursor `next_date`, the
module-level `schema`, `prev_schema` (`none` is the initial `{}`, which never
equals the schema dict), and the in-memory `state`. -/
structure LoopState where
  next_date : Date
  schema : Schema
  prevSchema : Option Schema
  state : Dict
  deriving DecidableEq, Repr

/-- The error classes that abort the loop, matching the three `except` arms of
`do_sync`: `KeyError` (with the offending payload), `RequestException` (with
its attached response), and the bare `Exception` arm (`AttributeError` out of
`giveup`, `ValueError` out of `strptime`). -/
inductive StepErr where
  | keyError (k : String) (payload : Payload)
  | reqError (response : Option HttpResp)
  | otherError
  deriving DecidableEq, Repr

/-- Cursor advance at the bottom of the loop body:
```
state = {"start_date": next_date}
next_date = (strptime(next_date) + timedelta(days=1)).strftime(DATE_FORMAT)
prev_schema = copy.deepcopy(schema)
```
Note `state` receives the day just processed: it is set before `next_date`
is advanced. -/
def advance (st : LoopState) (sch : Schema) : LoopState :=
  { next_date := nextDay st.next_date
    schema := sch
    prevSchema := some sch
    state := stdict (dateStr st.next_date) }

/-- The emit-schema decision `if schema != prev_schema: write_schema(...)`:
the messages it contributes to the iteration's output. -/
def schemaMsgsOf (st : LoopState) (sch : Schema) : List Msg :=
  if st.prevSchema ≠ some sch then [Msg.schemaMsg "exchange_rate" sch "date"] else []

/-- One iteration of the `while` body of `do_sync`, for the day
`st.next_date`: fetch, schema evolution, conditional schema emission,
date-gated record emission, cursor advance. Returns the messages written
during the iteration and either the next loop state or the exception that
escaped to the `except` arms. -/
def syncStep (fetch : Date → ReqOutcome) (st : LoopState) :
    List Msg × Except StepErr LoopState :=
  match fetch st.next_date with
  | .exn r => ([], .error (.reqError r))
  | .attrError => ([], .error .otherError)
  | .ok payload =>
    match payload.rates with
    | none => ([], .error (.keyError "rates" payload))
    | some rates =>
      let sch := updateSchema rates st.schema
      let schemaMsgs := schemaMsgsOf st sch
      match payload.date with
      | none => (schemaMsgs, .error (.keyError "date" payload))
      | some pdate =>
        if pdate = dateStr st.next_date then
          match parse_response payload with
          | .error (.keyError k) => (schemaMsgs, .error (.keyError k payload))
          | .error _ => (schemaMsgs, .error .otherError)
          | .ok (rec, _) =>
            (schemaMsgs ++ [Msg.recordMsg "exchange_rate" [rec]],
             .ok (advance st sch))
        else (schemaMsgs, .ok (advance st sch))

/-- How the `while` loop of `do_sync` ends. -/
inductive RunEnd where
  | normal (st : LoopState)
  | fatal (e : StepErr) (st : LoopState)
  | outOfFuel (st : LoopState)
  deriving DecidableEq, Repr

/-- The `while strptime(next_date) <= utcnow()` loop, with explicit fuel
(the loop itself terminates because the cursor grows past `today`;
`outOfFuel` marks runs the fuel did not cover and is never a model of the
program). -/
def syncLoop (fetch : Date → ReqOutcome) (today : Date) :
    Nat → LoopState → List Msg × RunEnd
  | 0, st => ([], .outOfFuel st)
  | fuel + 1, st =>
    if dateLe st.next_date today then
      match syncStep fetch st with
      | (msgs, .ok st2) =>
        let rest := syncLoop fetch today fuel st2
        (msgs ++ rest.1, rest.2)
      | (msgs, .error e) => (msgs, .fatal e st)
    else ([], .normal st)

/-- The loop state at entry of `do_sync`: `state = {"start_date": start_date}`,
`next_date = start_date`, `prev_schema = {}`, module-level `schema` fresh. -/
def initState (start : Date) : LoopState :=
  { next_date := start
    schema := schema0
    prevSchema := none
    state := stdict (dateStr start) }

/-- Result of a `do_sync` run: the stream written and the process exit code
(`0` for the normal return, `-1` for `sys.exit(-1)` from an `except` arm). -/
structure RunResult where
  msgs : List Msg
  exit : Int
  deriving DecidableEq, Repr

/-- `do_sync(start_date, access_key)`: run the loop; on normal exit append
`singer.write_state(state)` and finish with code 0; on any caught exception
log and `sys.exit(-1)` — note no state message is written on that path.
`none` only when the fuel did not cover the run. -/
def do_sync (fetch : Date → ReqOutcome) (today : Date) (fuel : Nat)
    (start : Date) : Option RunResult :=
  match syncLoop fetch today fuel (initState start) with
  | (msgs, .normal st) => some { msgs := msgs ++ [Msg.stateMsg st.state], exit := 0 }
  | (msgs, .fatal _ _) => some { msgs := msgs, exit := -1 }
  | (_, .outOfFuel _) => none

/-- Is a message a STATE message? -/
def isStateMsg : Msg → Bool
  | .stateMsg _ => true
  | _ => false

/-- Is a message a RECORD message? -/
def isRecordMsg : Msg → Bool
  | .recordMsg _ _ => true
  | _ => false

/-- Is a message a SCHEMA message? -/
def isSchemaMsg : Msg → Bool
  | .schemaMsg _ _ _ => true
  | _ => false

/-- Number of STATE messages in a stream. -/
def stateCount (ms : List Msg) : Nat := ms.countP isStateMsg

/-- A `fetch` environment built from per-attempt behaviours through the real
retry machinery: what `do_sync` sees when it calls `request`. -/
def fetchVia (attempts : Date → Nat → AttemptResult) (jitter : Nat → ℚ) :
    Date → ReqOutcome :=
  fun d => (request (attempts d) jitter).outcome

/-- The rate value 0.9, as the kernel-reducible constructor literal. -/
def rate09 : ℚ := ⟨9, 10, by norm_num, by norm_num⟩

/-- The rates mapping of the §8 scenario: `{EUR: 0.9}`. -/
def scenarioRates : Dict := [("EUR", Val.num rate09)]

/-- The payload of the §8 scenario for one day: base `USD`, matching date. -/
def scenarioPayload (d : Date) : Payload :=
  { base := some "USD", date := some (dateStr d), rates := some scenarioRates }

/-- A fetch environment in which every day succeeds with the §8 scenario
payload. -/
def fetchOK : Date → ReqOutcome := fun d => .ok (scenarioPayload d)

/-- The schema after the first scenario iteration: fixed fields plus `EUR`
(note: no `USD` — the schema loop only sees the raw rates keys). -/
def scenarioSchema : Schema :=
  [("date", .dateTimeString), ("base", .stringType), ("EUR", .nullNumber)]

/-- The record emitted for one scenario day. -/
def scenarioRecord (d : Date) : Dict :=
  [("EUR", Val.num rate09), ("USD", Val.num 1), ("base", Val.str "USD"),
   ("date", Val.str (isoMidnight d))]

/-- The full output stream of the §8 scenario run (start `2024-01-01`,
today `2024-01-03`). -/
def scenarioMsgs : List Msg :=
  [Msg.schemaMsg "exchange_rate" scenarioSchema "date",
   Msg.recordMsg "exchange_rate" [scenarioRecord ⟨2024, 1, 1⟩],
   Msg.recordMsg "exchange_rate" [scenarioRecord ⟨2024, 1, 2⟩],
   Msg.recordMsg "exchange_rate" [scenarioRecord ⟨2024, 1, 3⟩],
   Msg.stateMsg (stdict "2024-01-03")]

/-- Messages of the first scenario iteration. -/
def step1Msgs : List Msg :=
  [Msg.schemaMsg "exchange_rate" scenarioSchema "date",
   Msg.recordMsg "exchange_rate" [scenarioRecord ⟨2024, 1, 1⟩]]

/-- Loop state after the first scenario iteration. -/
def step1State : LoopState :=
  { next_date := ⟨2024, 1, 2⟩, schema := scenarioSchema,
    prevSchema := some scenarioSchema, state := stdict "2024-01-01" }

/-- A fetch environment whose payload lacks the `rates` key. -/
def fetchNoRates : Date → ReqOutcome :=
  fun _ => .ok { base := some "USD", date := some "2024-01-01", rates := none }

theorem alookup_ainsert_self {α : Type} (k : String) (v : α) (l : List (String × α)) :
    alookup k (ainsert k v l) = some v := by
  induction l with
  | nil => simp [ainsert, alookup]
  | cons kv rest ih =>
    by_cases h : kv.1 = k
    · simp [ainsert, alookup, h]
    · simp [ainsert, alookup, h, ih]

theorem alookup_ainsert_ne {α : Type} (k k' : String) (v : α) (l : List (String × α))
    (h : k' ≠ k) : alookup k (ainsert k' v l) = alookup k l := by
  induction l with
  | nil => simp [ainsert, alookup, h]
  | cons kv rest ih =>
    by_cases hk : kv.1 = k'
    · simp [ainsert, alookup, hk, h]
    · simp only [ainsert, hk, if_neg hk]
      by_cases hk2 : kv.1 = k
      · simp [alookup, hk2]
      · simp [alookup, hk2, ih]

theorem alookup_ainsert_cases {α : Type} (k k' : String) (v : α) (l : List (String × α))
    (h : alookup k (ainsert k' v l) ≠ none) : k = k' ∨ alookup k l ≠ none := by
  by_cases hk : k = k'
  · exact Or.inl hk
  · right
    rwa [alookup_ainsert_ne k k' v l (fun he => hk he.symm)] at h

theorem alookup_append_left {α : Type} (k : String) (l1 l2 : List (String × α)) (v : α)
    (h : alookup k l1 = some v) : alookup k (l1 ++ l2) = some v := by
  induction l1 with
  | nil => simp [alookup] at h
  | cons kv rest ih =>
    by_cases hk : kv.1 = k
    · simp [alookup, hk] at h ⊢; exact h
    · simp [alookup, hk] at h ⊢; exact ih h

theorem alookup_append_right {α : Type} (k : String) (l1 l2 : List (String × α))
    (h : alookup k l1 = none) : alookup k (l1 ++ l2) = alookup k l2 := by
  induction l1 with
  | nil => simp
  | cons kv rest ih =>
    by_cases hk : kv.1 = k
    · simp [alookup, hk] at h
    · simp [alookup, hk] at h ⊢; exact ih h

/-- Full characterisation of the schema-evolution loop: an existing binding is
kept unchanged, a currency of the payload not yet present becomes a
nullable-number field, and nothing else appears. -/
theorem updateSchema_lookup (k : String) (rates : Dict) (s : Schema) :
    alookup k (updateSchema rates s) =
      match alookup k s with
      | some f => some f
      | none => if (alookup k rates).isSome then some FieldSpec.nullNumber else none := by
  induction rates generalizing s with
  | nil => cases h : alookup k s <;> simp [updateSchema, h, alookup]
  | cons kv rest ih =>
    have hstep : updateSchema (kv :: rest) s =
        updateSchema rest
          (if (alookup kv.1 s).isSome then s else s ++ [(kv.1, FieldSpec.nullNumber)]) := by
      simp [updateSchema]
    rw [hstep, ih]
    by_cases hk : kv.1 = k
    · subst hk
      cases hs : alookup kv.1 s with
      | some f => simp [hs, alookup_append_left kv.1 s _ f hs]
      | none =>
        simp only [hs, Option.isSome_none, Bool.false_eq_true, if_false]
        rw [alookup_append_right kv.1 s _ hs]
        simp [alookup]
    · cases hs : alookup k s with
      | some f =>
        cases hs2 : alookup kv.1 s with
        | some g => simp [hs2, hs]
        | none => simp [hs2, hs, alookup_append_left k s _ f hs]
      | none =>
        cases hs2 : alookup kv.1 s with
        | some g => simp [hs2, hs, alookup, hk]
        | none =>
          simp only [hs2, Option.isSome_none, Bool.false_eq_true, if_false]
          rw [alookup_append_right k s _ hs]
          simp [alookup, hs, hk]

theorem updateSchema_preserve (k : String) (f : FieldSpec) (rates : Dict) (s : Schema)
    (h : alookup k s = some f) : alookup k (updateSchema rates s) = some f := by
  rw [updateSchema_lookup, h]

theorem updateSchema_of_rate (k : String) (rates : Dict) (s : Schema)
    (h : (alookup k rates).isSome) : (alookup k (updateSchema rates s)).isSome := by
  rw [updateSchema_lookup]
  cases hs : alookup k s with
  | some f => simp
  | none => simp [h]

theorem updateSchema_cases (k : String) (rates : Dict) (s : Schema)
    (h : alookup k (updateSchema rates s) ≠ none) :
    alookup k s ≠ none ∨ alookup k rates ≠ none := by
  rw [updateSchema_lookup] at h
  cases hs : alookup k s with
  | some f => exact Or.inl (by simp [hs])
  | none =>
    right
    rw [hs] at h
    cases hr : alookup k rates with
    | some v => simp [hr]
    | none => simp [hr] at h

theorem updateSchema_mono (k : String) (rates : Dict) (s : Schema)
    (h : alookup k s ≠ none) : alookup k (updateSchema rates s) ≠ none := by
  rw [updateSchema_lookup]
  cases hs : alookup k s with
  | none => exact absurd hs h
  | some f => simp

theorem updateSchema_mono_rates (k : String) (rates : Dict) (s : Schema)
    (h : alookup k rates ≠ none) : alookup k (updateSchema rates s) ≠ none := by
  rw [updateSchema_lookup]
  cases hs : alookup k s with
  | some f => simp
  | none =>
    cases hr : alookup k rates with
    | none => exact absurd hr h
    | some v => simp [hr]

theorem updateSchema_adds (k : String) (rates : Dict) (s : Schema)
    (hr : alookup k rates ≠ none) (hs : alookup k s = none) :
    alookup k (updateSchema rates s) = some FieldSpec.nullNumber := by
  rw [updateSchema_lookup, hs]
  cases h : alookup k rates with
  | some v => simp
  | none => exact absurd h hr

/-- The Gregorian successor is chronologically later. -/
theorem dateLt_nextDay (d : Date) : dateLt d (nextDay d) = true := by
  unfold nextDay dateLt
  split
  · simp
  · split <;> simp

theorem parse_response_ok (r : Payload) (rates : Dict) (b ds : String) (d : Date)
    (hr : r.rates = some rates) (hb : r.base = some b) (hd : r.date = some ds)
    (hds : strptimeD ds = some d) :
    parse_response r =
      .ok (prRecord b d rates, { r with rates := some (prRecord b d rates) }) := by
  simp only [parse_response, hr, hb, hd, hds]

theorem syncStep_skip (fetch : Date → ReqOutcome) (st : LoopState) (p : Payload)
    (rates : Dict) (pd : String)
    (hf : fetch st.next_date = .ok p) (hr : p.rates = some rates) (hd : p.date = some pd)
    (hne : pd ≠ dateStr st.next_date) :
    syncStep fetch st =
      (schemaMsgsOf st (updateSchema rates st.schema),
       .ok (advance st (updateSchema rates st.schema))) := by
  simp only [syncStep, hf, hr, hd, hne]
  simp

theorem syncStep_emit (fetch : Date → ReqOutcome) (st : LoopState) (p : Payload)
    (rates : Dict) (rec : Dict) (post : Payload)
    (hf : fetch st.next_date = .ok p) (hr : p.rates = some rates)
    (hd : p.date = some (dateStr st.next_date))
    (hpr : parse_response p = .ok (rec, post)) :
    syncStep fetch st =
      (schemaMsgsOf st (updateSchema rates st.schema) ++ [Msg.recordMsg "exchange_rate" [rec]],
       .ok (advance st (updateSchema rates st.schema))) := by
  simp only [syncStep, hf, hr, hd, hpr]
  simp

theorem syncStep_err_rates (fetch : Date → ReqOutcome) (st : LoopState) (p : Payload)
    (hf : fetch st.next_date = .ok p) (hr : p.rates = none) :
    syncStep fetch st = ([], .error (.keyError "rates" p)) := by
  simp only [syncStep, hf, hr]

theorem syncStep_err_date (fetch : Date → ReqOutcome) (st : LoopState) (p : Payload)
    (rates : Dict)
    (hf : fetch st.next_date = .ok p) (hr : p.rates = some rates) (hd : p.date = none) :
    syncStep fetch st =
      (schemaMsgsOf st (updateSchema rates st.schema), .error (.keyError "date" p)) := by
  simp only [syncStep, hf, hr, hd]

/-- Inversion: a loop iteration that reaches the advance step came from a
successful fetch, advanced the cursor by exactly one day, snapshotted the
updated schema, and wrote the schema messages of the emit decision plus at
most one record message for a date-matching payload. -/
theorem syncStep_ok_inv (fetch : Date → ReqOutcome) (st : LoopState)
    (msgs : List Msg) (st2 : LoopState)
    (h : syncStep fetch st = (msgs, .ok st2)) :
    ∃ p rates, fetch st.next_date = .ok p ∧ p.rates = some rates ∧
      st2 = advance st (updateSchema rates st.schema) ∧
      (msgs = schemaMsgsOf st (updateSchema rates st.schema) ∨
       ∃ rec post, parse_response p = .ok (rec, post) ∧
         p.date = some (dateStr st.next_date) ∧
         msgs = schemaMsgsOf st (updateSchema rates st.schema) ++
           [Msg.recordMsg "exchange_rate" [rec]]) := by
  cases hf : fetch st.next_date with
  | exn r => simp [syncStep, hf] at h
  | attrError => simp [syncStep, hf] at h
  | ok p =>
    cases hr : p.rates with
    | none => simp [syncStep, hf, hr] at h
    | some rates =>
      cases hd : p.date with
      | none => simp [syncStep, hf, hr, hd] at h
      | some pd =>
        by_cases hpd : pd = dateStr st.next_date
        · subst hpd
          cases hpr : parse_response p with
          | error e =>
            cases e <;> simp [syncStep, hf, hr, hd, hpr] at h
          | ok rp =>
            obtain ⟨rec, post⟩ := rp
            rw [syncStep_emit fetch st p rates rec post hf hr hd hpr] at h
            obtain ⟨h1, h2⟩ := Prod.mk.injEq .. ▸ h
            injection h2 with h2
            exact ⟨p, rates, rfl, hr, h2.symm,
              Or.inr ⟨rec, post, hpr, hd, h1.symm⟩⟩
        · rw [syncStep_skip fetch st p rates pd hf hr hd hpd] at h
          obtain ⟨h1, h2⟩ := Prod.mk.injEq .. ▸ h
          injection h2 with h2
          exact ⟨p, rates, rfl, hr, h2.symm, Or.inl h1.symm⟩

theorem syncStep_err_fetch (fetch : Date → ReqOutcome) (st : LoopState)
    (r : Option HttpResp) (hf : fetch st.next_date = .exn r) :
    syncStep fetch st = ([], .error (.reqError r)) := by
  simp only [syncStep, hf]

theorem syncStep_err_attr (fetch : Date → ReqOutcome) (st : LoopState)
    (hf : fetch st.next_date = .attrError) :
    syncStep fetch st = ([], .error .otherError) := by
  simp only [syncStep, hf]

theorem syncStep_err_parse (fetch : Date → ReqOutcome) (st : LoopState) (p : Payload)
    (rates : Dict) (pd : String) (e : PyErr)
    (hf : fetch st.next_date = .ok p) (hr : p.rates = some rates) (hd : p.date = some pd)
    (hpd : pd = dateStr st.next_date) (hpr : parse_response p = .error e) :
    syncStep fetch st =
      (schemaMsgsOf st (updateSchema rates st.schema),
       .error (match e with
               | .keyError k => .keyError k p
               | _ => .otherError)) := by
  subst hpd
  simp only [syncStep, hf, hr, hd, hpr]
  cases e <;> simp

/-- The messages of one iteration: nothing, the schema-emit decision alone, or
the schema-emit decision followed by one record message. -/
theorem syncStep_msgs (fetch : Date → ReqOutcome) (st : LoopState) :
    (syncStep fetch st).1 = [] ∨
    (∃ sch, (syncStep fetch st).1 = schemaMsgsOf st sch) ∨
    (∃ sch rec, (syncStep fetch st).1 =
      schemaMsgsOf st sch ++ [Msg.recordMsg "exchange_rate" [rec]]) := by
  cases hf : fetch st.next_date with
  | exn r => rw [syncStep_err_fetch fetch st r hf]; exact Or.inl rfl
  | attrError => rw [syncStep_err_attr fetch st hf]; exact Or.inl rfl
  | ok p =>
    cases hr : p.rates with
    | none => rw [syncStep_err_rates fetch st p hf hr]; exact Or.inl rfl
    | some rates =>
      cases hd : p.date with
      | none =>
        rw [syncStep_err_date fetch st p rates hf hr hd]
        exact Or.inr (Or.inl ⟨_, rfl⟩)
      | some pd =>
        by_cases hpd : pd = dateStr st.next_date
        · cases hpr : parse_response p with
          | error e =>
            rw [syncStep_err_parse fetch st p rates pd e hf hr hd hpd hpr]
            exact Or.inr (Or.inl ⟨_, rfl⟩)
          | ok rp =>
            obtain ⟨rec, post⟩ := rp
            rw [syncStep_emit fetch st p rates rec post hf hr (hpd ▸ hd) hpr]
            exact Or.inr (Or.inr ⟨_, rec, rfl⟩)
        · rw [syncStep_skip fetch st p rates pd hf hr hd hpd]
          exact Or.inr (Or.inl ⟨_, rfl⟩)

theorem stateCount_schemaMsgsOf (st : LoopState) (sch : Schema) :
    stateCount (schemaMsgsOf st sch) = 0 := by
  unfold stateCount schemaMsgsOf
  split <;> simp [isStateMsg]

/-- No iteration of the loop body ever writes a STATE message. -/
theorem stateCount_syncStep (fetch : Date → ReqOutcome) (st : LoopState) :
    stateCount (syncStep fetch st).1 = 0 := by
  rcases syncStep_msgs fetch st with h | ⟨sch, h⟩ | ⟨sch, rec, h⟩
  · simp [h, stateCount]
  · rw [h]; exact stateCount_schemaMsgsOf st sch
  · rw [h]
    unfold stateCount at *
    rw [List.countP_append]
    have := stateCount_schemaMsgsOf st sch
    unfold stateCount at this
    simp [this, isStateMsg]

/-- The whole `while` loop never writes a STATE message: `write_state` is only
reachable after the loop. -/
theorem stateCount_syncLoop (fetch : Date → ReqOutcome) (today : Date) :
    ∀ (fuel : Nat) (st : LoopState), stateCount (syncLoop fetch today fuel st).1 = 0 := by
  intro fuel
  induction fuel with
  | zero => intro st; simp [syncLoop, stateCount]
  | succ n ih =>
    intro st
    unfold syncLoop
    by_cases hle : dateLe st.next_date today
    · rw [if_pos hle]
      rcases h : syncStep fetch st with ⟨msgs, res⟩
      have h1 := stateCount_syncStep fetch st
      rw [h] at h1
      cases res with
      | ok st2 =>
        have h2 := ih st2
        unfold stateCount at h1 h2 ⊢
        simp [List.countP_append, h1, h2]
      | error e => simpa using h1
    · rw [if_neg hle]
      simp [stateCount]

theorem mem_schemaMsgsOf (st : LoopState) (sch : Schema) (m : Msg)
    (h : m ∈ schemaMsgsOf st sch) : m = Msg.schemaMsg "exchange_rate" sch "date" := by
  unfold schemaMsgsOf at h
  split at h
  · simpa using h
  · simp at h

theorem any_isSchemaMsg_schemaMsgsOf (st : LoopState) (sch : Schema) :
    (schemaMsgsOf st sch).any isSchemaMsg = true ↔ st.prevSchema ≠ some sch := by
  unfold schemaMsgsOf
  split <;> simp [isSchemaMsg, *]

theorem any_isRecordMsg_schemaMsgsOf (st : LoopState) (sch : Schema) :
    (schemaMsgsOf st sch).any isRecordMsg = false := by
  unfold schemaMsgsOf
  split <;> simp [isRecordMsg]

theorem prRecord_lookup_cur (b : String) (d : Date) (rates : Dict)
    (hb1 : b ≠ "base") (hb2 : b ≠ "date") :
    alookup b (prRecord b d rates) = some (Val.num 1) := by
  unfold prRecord
  rw [alookup_ainsert_ne b "date" _ _ (fun h => hb2 h.symm),
    alookup_ainsert_ne b "base" _ _ (fun h => hb1 h.symm),
    alookup_ainsert_self]

theorem prRecord_lookup_base (b : String) (d : Date) (rates : Dict) :
    alookup "base" (prRecord b d rates) = some (Val.str b) := by
  unfold prRecord
  rw [alookup_ainsert_ne "base" "date" _ _ (by decide), alookup_ainsert_self]

theorem prRecord_lookup_date (b : String) (d : Date) (rates : Dict) :
    alookup "date" (prRecord b d rates) = some (Val.str (isoMidnight d)) := by
  unfold prRecord
  rw [alookup_ainsert_self]

theorem prRecord_keys (b : String) (d : Date) (rates : Dict) (k : String)
    (h : alookup k (prRecord b d rates) ≠ none) :
    k = "date" ∨ k = "base" ∨ k = b ∨ alookup k rates ≠ none := by
  unfold prRecord at h
  rcases alookup_ainsert_cases _ _ _ _ h with h1 | h'
  · exact Or.inl h1
  rcases alookup_ainsert_cases _ _ _ _ h' with h2 | h''
  · exact Or.inr (Or.inl h2)
  rcases alookup_ainsert_cases _ _ _ _ h'' with h3 | h4
  · exact Or.inr (Or.inr (Or.inl h3))
  · exact Or.inr (Or.inr (Or.inr h4))

/-- C4 (counterexample): the claim says a connection-level failure with no
HTTP response is retried with the same policy as 429/5xx responses, but when
every attempt raises a connection error the request machinery stops after a
single attempt: `giveup` dereferences the absent response and the resulting
`AttributeError` escapes at once. -/
theorem conn_retry_cex :
    request (fun _ => AttemptResult.connError) (fun _ => 0) =
      { outcome := .attrError, tries := 1, delays := [] }
    ∧ (1 : Nat) ≠ max_tries := by
  exact ⟨by decide, by decide⟩

/-- C4 (amended): a failure whose response has status 429 or ≥ 500 is retried
with a constant 30-unit delay plus the jitter draw, up to 5 attempts, and the
`RequestException` then surfaces to the caller; a failure with any other
status present gives up on the first attempt and surfaces to the caller; but
a connection-level failure (no response) is not retried at all — `giveup`
itself fails on the first attempt and an `AttributeError` surfaces instead. -/
theorem retry_policy_amended (attempt : Nat → AttemptResult) (jitter : Nat → ℚ) :
    (∀ r : HttpResp, (∀ i, attempt i = .httpError r) →
       (r.status = 429 ∨ 500 ≤ r.status) →
       request attempt jitter =
         { outcome := .exn (some r), tries := max_tries,
           delays := [interval + jitter 0, interval + jitter 1,
                      interval + jitter 2, interval + jitter 3] })
    ∧ (∀ r : HttpResp, attempt 0 = .httpError r → r.status ≠ 429 → r.status < 500 →
       request attempt jitter = { outcome := .exn (some r), tries := 1, delays := [] })
    ∧ (attempt 0 = .connError →
       request attempt jitter = { outcome := .attrError, tries := 1, delays := [] }) := by
  refine ⟨?_, ?_, ?_⟩
  · intro r hall hst
    have hg : giveup (some r) = .ok false := by
      unfold giveup
      rcases hst with h | h
      · simp [h]
      · have hd : decide (500 ≤ r.status) = true := decide_eq_true h
        simp [hd]
    simp only [request, max_tries, requestGo, hall, hg]
    norm_num [max_tries]
  · intro r h0 h429 h500
    have hg : giveup (some r) = .ok true := by
      unfold giveup
      have h1 : (r.status == 429) = false := by
        simp [Nat.beq_eq_true_eq]
        exact h429
      have h2 : decide (500 ≤ r.status) = false := by
        simp
        omega
      simp [h1, h2]
    simp only [request, max_tries, requestGo, h0, hg]
    norm_num
  · intro h0
    simp only [request, max_tries, requestGo, h0, giveup]
    norm_num

/-- C4 (witness): a response that always fails with 503 is retried five times
with the 30-unit constant delay, then surfaces. -/
theorem retry_policy_amended_witness :
    request (fun _ => AttemptResult.httpError ⟨503, "busy"⟩) (fun _ => 0) =
      { outcome := .exn (some ⟨503, "busy"⟩), tries := max_tries,
        delays := [interval + 0, interval + 0, interval + 0, interval + 0] } :=
  (retry_policy_amended (fun _ => AttemptResult.httpError ⟨503, "busy"⟩) (fun _ => 0)).1
    ⟨503, "busy"⟩ (fun _ => rfl) (Or.inr (by norm_num))

/-- C7: for a payload carrying a base currency code (a currency code is
distinct from the literal field names `base` and `date`), a rates mapping and
a well-formed date, the record built by `parse_response` maps the base
currency code to 1.0, `base` to the base currency code, and `date` to the
payload date reformatted as an ISO-8601 UTC midnight timestamp. -/
theorem base_normalized_record (r : Payload) (rates : Dict) (b ds : String) (d : Date)
    (hr : r.rates = some rates) (hb : r.base = some b) (hd : r.date = some ds)
    (hds : strptimeD ds = some d) (hb1 : b ≠ "base") (hb2 : b ≠ "date") :
    parse_response r =
      .ok (prRecord b d rates, { r with rates := some (prRecord b d rates) })
    ∧ alookup b (prRecord b d rates) = some (Val.num 1)
    ∧ alookup "base" (prRecord b d rates) = some (Val.str b)
    ∧ alookup "date" (prRecord b d rates) = some (Val.str (isoMidnight d)) :=
  ⟨parse_response_ok r rates b ds d hr hb hd hds,
   prRecord_lookup_cur b d rates hb1 hb2,
   prRecord_lookup_base b d rates,
   prRecord_lookup_date b d rates⟩

/-- C7 (witness): concrete payload with base `USD`, one `EUR` rate and date
`2024-01-01`. -/
theorem base_normalized_record_witness :
    parse_response
        { base := some "USD", date := some "2024-01-01",
          rates := some [("EUR", Val.num rate09)] } =
      .ok (prRecord "USD" ⟨2024, 1, 1⟩ [("EUR", Val.num rate09)],
           { base := some "USD", date := some "2024-01-01",
             rates := some (prRecord "USD" ⟨2024, 1, 1⟩ [("EUR", Val.num rate09)]) })
    ∧ alookup "USD" (prRecord "USD" ⟨2024, 1, 1⟩ [("EUR", Val.num rate09)]) =
        some (Val.num 1)
    ∧ alookup "base" (prRecord "USD" ⟨2024, 1, 1⟩ [("EUR", Val.num rate09)]) =
        some (Val.str "USD")
    ∧ alookup "date" (prRecord "USD" ⟨2024, 1, 1⟩ [("EUR", Val.num rate09)]) =
        some (Val.str (isoMidnight ⟨2024, 1, 1⟩)) :=
  base_normalized_record
    { base := some "USD", date := some "2024-01-01",
      rates := some [("EUR", Val.num rate09)] }
    [("EUR", Val.num rate09)] "USD" "2024-01-01" ⟨2024, 1, 1⟩
    rfl rfl rfl (by decide) (by decide) (by decide)

/-- C10: `parse_response` returns the payload's own rates dict, mutated in
place — modelled by the post-call payload whose `rates` is exactly the
returned record — now also holding the base currency at 1.0 and the
string-valued `base` and `date` entries; a payload whose rates had no `date`
key is therefore visibly changed by the call. -/
theorem parse_response_mutation (r : Payload) (rates : Dict) (b ds : String) (d : Date)
    (hr : r.rates = some rates) (hb : r.base = some b) (hd : r.date = some ds)
    (hds : strptimeD ds = some d) (hb1 : b ≠ "base") (hb2 : b ≠ "date")
    (hfresh : alookup "date" rates = none) :
    parse_response r =
        .ok (prRecord b d rates, { r with rates := some (prRecord b d rates) })
    ∧ alookup b (prRecord b d rates) = some (Val.num 1)
    ∧ alookup "base" (prRecord b d rates) = some (Val.str b)
    ∧ alookup "date" (prRecord b d rates) = some (Val.str (isoMidnight d))
    ∧ { r with rates := some (prRecord b d rates) } ≠ r := by
  have heq := parse_response_ok r rates b ds d hr hb hd hds
  refine ⟨heq, prRecord_lookup_cur b d rates hb1 hb2,
    prRecord_lookup_base b d rates, prRecord_lookup_date b d rates, ?_⟩
  · intro h
    have hrr := congrArg Payload.rates h
    simp only [hr] at hrr
    have hpr : prRecord b d rates = rates := by injection hrr
    rw [← hpr] at hfresh
    rw [prRecord_lookup_date b d rates] at hfresh
    exact Option.noConfusion hfresh

/-- C10 (witness): the concrete payload of the C7 witness is mutated by the
call. -/
theorem parse_response_mutation_witness :
    parse_response
        { base := some "USD", date := some "2024-01-01",
          rates := some [("EUR", Val.num rate09)] } =
      .ok (prRecord "USD" ⟨2024, 1, 1⟩ [("EUR", Val.num rate09)],
           { base := some "USD", date := some "2024-01-01",
             rates := some (prRecord "USD" ⟨2024, 1, 1⟩ [("EUR", Val.num rate09)]) })
    ∧ alookup "USD" (prRecord "USD" ⟨2024, 1, 1⟩ [("EUR", Val.num rate09)]) =
        some (Val.num 1)
    ∧ alookup "base" (prRecord "USD" ⟨2024, 1, 1⟩ [("EUR", Val.num rate09)]) =
        some (Val.str "USD")
    ∧ alookup "date" (prRecord "USD" ⟨2024, 1, 1⟩ [("EUR", Val.num rate09)]) =
        some (Val.str (isoMidnight ⟨2024, 1, 1⟩))
    ∧ ({ base := some "USD", date := some "2024-01-01",
         rates := some (prRecord "USD" ⟨2024, 1, 1⟩ [("EUR", Val.num rate09)]) }
         : Payload) ≠
        { base := some "USD", date := some "2024-01-01",
          rates := some [("EUR", Val.num rate09)] } :=
  parse_response_mutation
    { base := some "USD", date := some "2024-01-01",
      rates := some [("EUR", Val.num rate09)] }
    [("EUR", Val.num rate09)] "USD" "2024-01-01" ⟨2024, 1, 1⟩
    rfl rfl rfl (by decide) (by decide) (by decide) (by decide)

/-- C5: in an iteration whose fetch succeeded, the schema message is written
exactly when the (already updated) schema differs from `prev_schema`; since
`prev_schema` is the empty dict at entry (`none` in the model, never equal to
the schema), the first iteration always emits; each completed iteration
snapshots the current schema, so later iterations compare against the
immediately preceding iteration's schema by structural equality. -/
theorem schema_emit_iff_changed (fetch : Date → ReqOutcome) (st : LoopState)
    (p : Payload) (rates : Dict)
    (hf : fetch st.next_date = .ok p) (hr : p.rates = some rates) :
    ((syncStep fetch st).1.any isSchemaMsg = true ↔
       st.prevSchema ≠ some (updateSchema rates st.schema))
    ∧ (st.prevSchema = none → (syncStep fetch st).1.any isSchemaMsg = true)
    ∧ (∀ msgs st2, syncStep fetch st = (msgs, .ok st2) →
        st2.prevSchema = some st2.schema)
    ∧ (∀ d0, (initState d0).prevSchema = none) := by
  have hmain : (syncStep fetch st).1.any isSchemaMsg = true ↔
      st.prevSchema ≠ some (updateSchema rates st.schema) := by
    cases hd : p.date with
    | none =>
      rw [syncStep_err_date fetch st p rates hf hr hd]
      exact any_isSchemaMsg_schemaMsgsOf st _
    | some pd =>
      by_cases hpd : pd = dateStr st.next_date
      · cases hpr : parse_response p with
        | error e =>
          rw [syncStep_err_parse fetch st p rates pd e hf hr hd hpd hpr]
          exact any_isSchemaMsg_schemaMsgsOf st _
        | ok rp =>
          obtain ⟨rec, post⟩ := rp
          rw [syncStep_emit fetch st p rates rec post hf hr (hpd ▸ hd) hpr]
          rw [List.any_append]
          have hrec : ([Msg.recordMsg "exchange_rate" [rec]]).any isSchemaMsg = false := by
            simp [isSchemaMsg]
          rw [hrec, Bool.or_false]
          exact any_isSchemaMsg_schemaMsgsOf st _
      · rw [syncStep_skip fetch st p rates pd hf hr hd hpd]
        exact any_isSchemaMsg_schemaMsgsOf st _
  refine ⟨hmain, ?_, ?_, fun d0 => rfl⟩
  · intro hnone
    rw [hmain, hnone]
    simp
  · intro msgs st2 h
    obtain ⟨p', rates', hf', hr', hst2, _⟩ := syncStep_ok_inv fetch st msgs st2 h
    rw [hst2]
    rfl

/-- C5 (witness): the first scenario iteration, started from the initial
state, emits the schema message. -/
theorem schema_emit_iff_changed_witness :
    (syncStep fetchOK (initState ⟨2024, 1, 1⟩)).1.any isSchemaMsg = true ↔
      (initState ⟨2024, 1, 1⟩).prevSchema ≠
        some (updateSchema scenarioRates (initState ⟨2024, 1, 1⟩).schema) :=
  (schema_emit_iff_changed fetchOK (initState ⟨2024, 1, 1⟩)
    (scenarioPayload ⟨2024, 1, 1⟩) scenarioRates rfl rfl).1

/-- C6: in an iteration whose fetch succeeded and whose payload carries a
date, a record message is written exactly when the payload date equals the
requested cursor day; on a mismatch the iteration succeeds silently with no
record and the cursor still advances to the next day. -/
theorem record_date_gating (fetch : Date → ReqOutcome) (st : LoopState)
    (p : Payload) (rates : Dict) (pd : String)
    (hf : fetch st.next_date = .ok p) (hr : p.rates = some rates)
    (hd : p.date = some pd) :
    (∀ msgs st2, syncStep fetch st = (msgs, .ok st2) →
       ((msgs.any isRecordMsg = true) ↔ pd = dateStr st.next_date)
       ∧ st2.next_date = nextDay st.next_date)
    ∧ (pd ≠ dateStr st.next_date →
       syncStep fetch st =
         (schemaMsgsOf st (updateSchema rates st.schema),
          .ok (advance st (updateSchema rates st.schema)))) := by
  constructor
  · intro msgs st2 h
    by_cases hpd : pd = dateStr st.next_date
    · subst hpd
      cases hpr : parse_response p with
      | error e =>
        rw [syncStep_err_parse fetch st p rates _ e hf hr hd rfl hpr] at h
        cases e <;> simp at h
      | ok rp =>
        obtain ⟨rec, post⟩ := rp
        rw [syncStep_emit fetch st p rates rec post hf hr hd hpr] at h
        obtain ⟨h1, h2⟩ := Prod.mk.injEq .. ▸ h
        injection h2 with h2
        constructor
        · rw [← h1]
          simp [List.any_append, isRecordMsg]
        · rw [← h2]
          rfl
    · rw [syncStep_skip fetch st p rates pd hf hr hd hpd] at h
      obtain ⟨h1, h2⟩ := Prod.mk.injEq .. ▸ h
      injection h2 with h2
      constructor
      · rw [← h1, any_isRecordMsg_schemaMsgsOf]
        simp [hpd]
      · rw [← h2]
        rfl
  · intro hpd
    exact syncStep_skip fetch st p rates pd hf hr hd hpd

/-- C6 (witness): the first scenario iteration has a matching date and emits
its record; its successor state's cursor is the next day. -/
theorem record_date_gating_witness :
    ((step1Msgs.any isRecordMsg = true) ↔
       dateStr ⟨2024, 1, 1⟩ = dateStr (initState ⟨2024, 1, 1⟩).next_date)
    ∧ step1State.next_date = nextDay (initState ⟨2024, 1, 1⟩).next_date :=
  (record_date_gating fetchOK (initState ⟨2024, 1, 1⟩) (scenarioPayload ⟨2024, 1, 1⟩)
    scenarioRates (dateStr ⟨2024, 1, 1⟩) rfl rfl rfl).1 step1Msgs step1State (by decide)

/-- C8: the schema update of an iteration keeps every existing field with its
descriptor, adds exactly one nullable-number field per raw-rates currency not
yet present, adds nothing else, and both the schema message written by the
iteration (if any) and the schema carried into the next iteration are the
already-updated schema — the update precedes the emit decisions. -/
theorem schema_growth_invariant (fetch : Date → ReqOutcome) (st : LoopState)
    (p : Payload) (rates : Dict) (msgs : List Msg) (res : Except StepErr LoopState)
    (hf : fetch st.next_date = .ok p) (hr : p.rates = some rates)
    (hs : syncStep fetch st = (msgs, res)) :
    (∀ k f, alookup k st.schema = some f →
       alookup k (updateSchema rates st.schema) = some f)
    ∧ (∀ k, alookup k rates ≠ none → alookup k st.schema = none →
       alookup k (updateSchema rates st.schema) = some FieldSpec.nullNumber)
    ∧ (∀ k, alookup k (updateSchema rates st.schema) ≠ none →
       alookup k st.schema ≠ none ∨ alookup k rates ≠ none)
    ∧ (∀ s sch key, Msg.schemaMsg s sch key ∈ msgs →
       sch = updateSchema rates st.schema)
    ∧ (∀ st2, res = .ok st2 → st2.schema = updateSchema rates st.schema) := by
  refine ⟨fun k f h => updateSchema_preserve k f rates st.schema h,
    fun k h1 h2 => updateSchema_adds k rates st.schema h1 h2,
    fun k h => updateSchema_cases k rates st.schema h, ?_, ?_⟩
  · intro s sch key hm
    have hshape : msgs = schemaMsgsOf st (updateSchema rates st.schema) ∨
        ∃ rec, msgs = schemaMsgsOf st (updateSchema rates st.schema) ++
          [Msg.recordMsg "exchange_rate" [rec]] ∨ msgs = [] := by
      cases hd : p.date with
      | none =>
        rw [syncStep_err_date fetch st p rates hf hr hd] at hs
        exact Or.inl (congrArg Prod.fst hs).symm
      | some pd =>
        by_cases hpd : pd = dateStr st.next_date
        · cases hpr : parse_response p with
          | error e =>
            rw [syncStep_err_parse fetch st p rates pd e hf hr hd hpd hpr] at hs
            exact Or.inl (congrArg Prod.fst hs).symm
          | ok rp =>
            obtain ⟨rec, post⟩ := rp
            rw [syncStep_emit fetch st p rates rec post hf hr (hpd ▸ hd) hpr] at hs
            exact Or.inr ⟨rec, Or.inl (congrArg Prod.fst hs).symm⟩
        · rw [syncStep_skip fetch st p rates pd hf hr hd hpd] at hs
          exact Or.inl (congrArg Prod.fst hs).symm
    rcases hshape with h1 | ⟨rec, h1 | h1⟩
    · rw [h1] at hm
      have he := mem_schemaMsgsOf st _ _ hm
      obtain ⟨e1, e2, e3⟩ := Msg.schemaMsg.injEq .. ▸ he
      exact e2
    · rw [h1] at hm
      rcases List.mem_append.1 hm with hm1 | hm2
      · have he := mem_schemaMsgsOf st _ _ hm1
        obtain ⟨e1, e2, e3⟩ := Msg.schemaMsg.injEq .. ▸ he
        exact e2
      · simp at hm2
    · rw [h1] at hm
      simp at hm
  · intro st2 hok
    rw [hok] at hs
    obtain ⟨p', rates', hf', hr', hst2, _⟩ := syncStep_ok_inv fetch st msgs st2 hs
    rw [hf] at hf'
    injection hf' with hpp
    subst hpp
    rw [hr] at hr'
    injection hr' with hrr
    subst hrr
    rw [hst2]
    rfl

/-- C8 (witness): after the first scenario iteration the carried schema is the
updated schema of that iteration. -/
theorem schema_growth_invariant_witness :
    step1State.schema = updateSchema scenarioRates (initState ⟨2024, 1, 1⟩).schema :=
  (schema_growth_invariant fetchOK (initState ⟨2024, 1, 1⟩) (scenarioPayload ⟨2024, 1, 1⟩)
    scenarioRates step1Msgs (.ok step1State) rfl rfl (by decide)).2.2.2.2 step1State rfl

/-- C3 (counterexample): in the §8 scenario's first iteration the emitted
record contains the injected base-currency key `USD` (value 1.0), but the
schema at the moment of emission — the one carried by the very schema message
of the same iteration — has no `USD` field: the schema loop only sees the raw
rates keys, never the injected base key. -/
theorem record_schema_superset_cex :
    syncStep fetchOK (initState ⟨2024, 1, 1⟩) = (step1Msgs, .ok step1State)
    ∧ Msg.recordMsg "exchange_rate" [scenarioRecord ⟨2024, 1, 1⟩] ∈ step1Msgs
    ∧ alookup "USD" (scenarioRecord ⟨2024, 1, 1⟩) = some (Val.num 1)
    ∧ alookup "USD" scenarioSchema = none
    ∧ step1State.schema = scenarioSchema :=
  ⟨by decide, by decide, by decide, by decide, by decide⟩

/-- C3 (amended): at every record emission, every key of the emitted record
other than the injected base-currency key is present in the schema at that
moment; the base-currency key itself is covered only when it also occurs
among the raw rates keys. -/
theorem record_keys_amended (fetch : Date → ReqOutcome) (st : LoopState)
    (p : Payload) (rates : Dict) (b : String) (msgs : List Msg) (st2 : LoopState)
    (hf : fetch st.next_date = .ok p) (hb : p.base = some b) (hr : p.rates = some rates)
    (hdk : alookup "date" st.schema ≠ none) (hbk : alookup "base" st.schema ≠ none)
    (hs : syncStep fetch st = (msgs, .ok st2)) :
    ∀ s recs, Msg.recordMsg s recs ∈ msgs → ∀ rec, rec ∈ recs → ∀ k,
      alookup k rec ≠ none → k = b ∨ alookup k st2.schema ≠ none := by
  intro s recs hm rec hrec k hk
  cases hd : p.date with
  | none =>
    rw [syncStep_err_date fetch st p rates hf hr hd] at hs
    exact absurd hs (by simp)
  | some pd =>
    by_cases hpd : pd = dateStr st.next_date
    · subst hpd
      cases hds : strptimeD (dateStr st.next_date) with
      | none =>
        have hpr : parse_response p = .error .valueError := by
          simp only [parse_response, hr, hb, hd, hds]
        rw [syncStep_err_parse fetch st p rates _ PyErr.valueError hf hr hd rfl hpr] at hs
        exact absurd hs (by simp)
      | some d =>
        have hpr := parse_response_ok p rates b _ d hr hb hd hds
        rw [syncStep_emit fetch st p rates _ _ hf hr hd hpr] at hs
        obtain ⟨h1, h2⟩ := Prod.mk.injEq .. ▸ hs
        injection h2 with h2
        rw [← h1] at hm
        rcases List.mem_append.1 hm with hm1 | hm2
        · have he := mem_schemaMsgsOf st _ _ hm1
          exact absurd he (by simp)
        · have hrecs : recs = [prRecord b d rates] := by
            have := List.mem_singleton.1 hm2
            obtain ⟨e1, e2⟩ := Msg.recordMsg.injEq .. ▸ this
            exact e2
          rw [hrecs] at hrec
          have hrec2 : rec = prRecord b d rates := List.mem_singleton.1 hrec
          rw [hrec2] at hk
          have hsch : st2.schema = updateSchema rates st.schema := by
            rw [← h2]
            rfl
          rcases prRecord_keys b d rates k hk with he | he | he | he
          · right
            rw [hsch, he]
            exact updateSchema_mono "date" rates st.schema hdk
          · right
            rw [hsch, he]
            exact updateSchema_mono "base" rates st.schema hbk
          · exact Or.inl he
          · right
            rw [hsch]
            exact updateSchema_mono_rates k rates st.schema he
    · rw [syncStep_skip fetch st p rates pd hf hr hd hpd] at hs
      obtain ⟨h1, h2⟩ := Prod.mk.injEq .. ▸ hs
      rw [← h1] at hm
      have he := mem_schemaMsgsOf st _ _ hm
      exact absurd he (by simp)

/-- C3 (witness): the `EUR` key of the scenario record is covered by the
schema carried out of the first iteration. -/
theorem record_keys_amended_witness :
    "EUR" = "USD" ∨ alookup "EUR" step1State.schema ≠ none :=
  record_keys_amended fetchOK (initState ⟨2024, 1, 1⟩) (scenarioPayload ⟨2024, 1, 1⟩)
    scenarioRates "USD" step1Msgs step1State rfl rfl rfl (by decide) (by decide)
    (by decide) "exchange_rate" [scenarioRecord ⟨2024, 1, 1⟩] (by decide)
    (scenarioRecord ⟨2024, 1, 1⟩) (by decide) "EUR" (by decide)

/-- C2 (counterexample): in the §8 scenario run (start `2024-01-01`, current
UTC date `2024-01-03`, all fetches succeed with matching dates) the final
flushed state is `{start_date: "2024-01-03"}` — the last day processed — and
not the claimed `{start_date: "2024-01-04"}`: `state` is assigned before
`next_date` is advanced, so it always lags the cursor by one day. -/
theorem cursor_final_state_cex :
    do_sync fetchOK ⟨2024, 1, 3⟩ 4 ⟨2024, 1, 1⟩ =
      some { msgs := scenarioMsgs, exit := 0 }
    ∧ scenarioMsgs.getLast? = some (Msg.stateMsg (stdict "2024-01-03"))
    ∧ Msg.stateMsg (stdict "2024-01-04") ∉ scenarioMsgs :=
  ⟨by decide, by decide, by decide⟩

/-- C2 (amended): at the end of every completed iteration the in-memory
SyncState holds the day just processed — one day behind the advanced cursor —
and the cursor itself strictly advances by exactly one calendar day per
iteration; the §8 scenario run therefore ends with final flushed state
`{start_date: "2024-01-03"}`. -/
theorem cursor_advance_amended :
    (∀ (fetch : Date → ReqOutcome) (st : LoopState) (msgs : List Msg) (st2 : LoopState),
       syncStep fetch st = (msgs, .ok st2) →
       st2.state = stdict (dateStr st.next_date)
       ∧ st2.next_date = nextDay st.next_date
       ∧ dateLt st.next_date st2.next_date = true)
    ∧ (do_sync fetchOK ⟨2024, 1, 3⟩ 4 ⟨2024, 1, 1⟩).map (fun res => res.msgs.getLast?) =
        some (some (Msg.stateMsg (stdict "2024-01-03"))) := by
  constructor
  · intro fetch st msgs st2 h
    obtain ⟨p, rates, hf, hr, hst2, _⟩ := syncStep_ok_inv fetch st msgs st2 h
    subst hst2
    exact ⟨rfl, rfl, dateLt_nextDay st.next_date⟩
  · decide

/-- C2 (witness): the first scenario iteration persists the processed day
`2024-01-01` and advances the cursor to `2024-01-02`. -/
theorem cursor_advance_amended_witness :
    step1State.state = stdict (dateStr (initState ⟨2024, 1, 1⟩).next_date)
    ∧ step1State.next_date = nextDay (initState ⟨2024, 1, 1⟩).next_date
    ∧ dateLt (initState ⟨2024, 1, 1⟩).next_date step1State.next_date = true :=
  cursor_advance_amended.1 fetchOK (initState ⟨2024, 1, 1⟩) step1Msgs step1State (by decide)

/-- C9: a payload lacking the `rates` key aborts the loop at once with the
`KeyError` arm and no message of that iteration; one lacking the `date` key
aborts after at most the schema message, with no record message; in both
cases the loop ends fatally on the very state that requested the day (the
cursor is not advanced past it), and any fatally-ended run exits with code
-1. -/
theorem malformed_payload_fatal (fetch : Date → ReqOutcome) (today : Date) (fuel : Nat)
    (st : LoopState) (p : Payload)
    (hle : dateLe st.next_date today = true)
    (hf : fetch st.next_date = .ok p) :
    (p.rates = none →
       syncLoop fetch today (fuel + 1) st = ([], .fatal (.keyError "rates" p) st))
    ∧ (∀ rates, p.rates = some rates → p.date = none →
       syncLoop fetch today (fuel + 1) st =
         (schemaMsgsOf st (updateSchema rates st.schema),
          .fatal (.keyError "date" p) st))
    ∧ (∀ (fuel2 : Nat) (start : Date) (ms : List Msg) (e : StepErr) (st2 : LoopState),
       syncLoop fetch today fuel2 (initState start) = (ms, .fatal e st2) →
       do_sync fetch today fuel2 start = some { msgs := ms, exit := -1 }) := by
  refine ⟨?_, ?_, ?_⟩
  · intro hrn
    unfold syncLoop
    rw [if_pos hle, syncStep_err_rates fetch st p hf hrn]
  · intro rates hrs hdn
    unfold syncLoop
    rw [if_pos hle, syncStep_err_date fetch st p rates hf hrs hdn]
  · intro fuel2 start ms e st2 h
    unfold do_sync
    rw [h]

/-- C9 (witness): a first-day payload with no `rates` key ends the run
fatally on the initial state, and that fatal run exits -1. -/
theorem malformed_payload_fatal_witness :
    syncLoop fetchNoRates ⟨2024, 1, 3⟩ 1 (initState ⟨2024, 1, 1⟩) =
      ([], .fatal
        (.keyError "rates" { base := some "USD", date := some "2024-01-01", rates := none })
        (initState ⟨2024, 1, 1⟩)) :=
  (malformed_payload_fatal fetchNoRates ⟨2024, 1, 3⟩ 0 (initState ⟨2024, 1, 1⟩)
    { base := some "USD", date := some "2024-01-01", rates := none }
    (by decide) rfl).1 rfl

/-- C1 (counterexample): a run whose very first fetch fails with a
non-retryable 404 — through the real retry machinery — terminates with exit
code -1 and an empty output stream: no STATE message is flushed on the fatal
path, because the `except` arms call `sys.exit(-1)` without reaching
`singer.write_state`. -/
theorem state_flush_cex :
    do_sync (fetchVia (fun _ _ => .httpError ⟨404, "Not Found"⟩) (fun _ => 0))
        ⟨2024, 1, 3⟩ 4 ⟨2024, 1, 1⟩ = some { msgs := [], exit := -1 }
    ∧ stateCount ([] : List Msg) = 0 :=
  ⟨by decide, by decide⟩

/-- C1 (amended): a STATE message is written exactly once on normal
termination (as the final message), and never on fatal termination — a
fatally-ended run exits -1 with zero STATE messages in its stream. -/
theorem state_flush_amended (fetch : Date → ReqOutcome) (today : Date) (fuel : Nat)
    (start : Date) (res : RunResult)
    (h : do_sync fetch today fuel start = some res) :
    (res.exit = 0 ∧ stateCount res.msgs = 1
      ∧ res.msgs.getLast?.map isStateMsg = some true)
    ∨ (res.exit = -1 ∧ stateCount res.msgs = 0) := by
  unfold do_sync at h
  rcases hl : syncLoop fetch today fuel (initState start) with ⟨msgs, e⟩
  rw [hl] at h
  have hc := stateCount_syncLoop fetch today fuel (initState start)
  rw [hl] at hc
  cases e with
  | normal st =>
    injection h with h
    left
    rw [← h]
    refine ⟨rfl, ?_, ?_⟩
    · unfold stateCount at hc ⊢
      rw [List.countP_append]
      simp only at hc
      simp [hc, isStateMsg]
    · simp [List.getLast?_concat, isStateMsg]
  | fatal e2 st =>
    injection h with h
    right
    rw [← h]
    exact ⟨rfl, by simpa using hc⟩
  | outOfFuel st => simp at h

/-- C1 (witness): the normal §8 scenario run exits 0 with exactly one STATE
message, placed last. -/
theorem state_flush_amended_witness :
    ((0 : Int) = 0 ∧ stateCount scenarioMsgs = 1
      ∧ scenarioMsgs.getLast?.map isStateMsg = some true)
    ∨ ((0 : Int) = -1 ∧ stateCount scenarioMsgs = 0) :=
  state_flush_amended fetchOK ⟨2024, 1, 3⟩ 4 ⟨2024, 1, 1⟩
    { msgs := scenarioMsgs, exit := 0 } (by decide)

end Tap
